import Mathlib

/-!
Shallow embedding of the `dragknife-repath` core (src/lib.rs, src/types.rs,
src/vec3.rs) over exact real arithmetic: every `f32` of the source is
modelled as a real number, `f32::EPSILON` as the exact constant `2⁻²³`,
and the parsed G-code commands of the external `gcode` crate as records
with an unbounded argument list (the crate's `VecBuffers`, used by this
std build, grow without bound, so `push_argument` always succeeds).
-/

namespace Dragknife

noncomputable section

open scoped Classical
open Real

/-- `Vec3` of src/vec3.rs: a triple of coordinates. -/
structure Vec3 where
  x : ℝ
  y : ℝ
  z : ℝ

/-- `Vec3::zero`. -/
def Vec3.zero : Vec3 := ⟨0, 0, 0⟩

instance : Add Vec3 := ⟨fun a b => ⟨a.x + b.x, a.y + b.y, a.z + b.z⟩⟩

instance : Sub Vec3 := ⟨fun a b => ⟨a.x - b.x, a.y - b.y, a.z - b.z⟩⟩

instance : HMul Vec3 ℝ Vec3 := ⟨fun a c => ⟨a.x * c, a.y * c, a.z * c⟩⟩

instance : HDiv Vec3 ℝ Vec3 := ⟨fun a c => ⟨a.x / c, a.y / c, a.z / c⟩⟩

/-- `GCodeUnit` of src/types.rs. -/
inductive GCodeUnit where
  | millimeters
  | inches
deriving DecidableEq

/-- `GCodeAxis` of src/types.rs. -/
inductive GCodeAxis where
  | X
  | Y
  | Z
deriving DecidableEq

/-- `GCodeAxis::main_name`. -/
def GCodeAxis.mainName : GCodeAxis → Char
  | .X => 'X'
  | .Y => 'Y'
  | .Z => 'Z'

/-- `GCodeAxis::center_name`. -/
def GCodeAxis.centerName : GCodeAxis → Char
  | .X => 'I'
  | .Y => 'J'
  | .Z => 'K'

/-- `GCodePlane` of src/types.rs. -/
inductive GCodePlane where
  | XY
  | ZX
  | YZ
deriving DecidableEq

/-- `GCodePlane::axis_1`. -/
def GCodePlane.axis1 : GCodePlane → GCodeAxis
  | .XY => .X
  | .ZX => .Z
  | .YZ => .Y

/-- `GCodePlane::axis_2`. -/
def GCodePlane.axis2 : GCodePlane → GCodeAxis
  | .XY => .Y
  | .ZX => .X
  | .YZ => .Z

/-- `GCodePlane::axis_3`. -/
def GCodePlane.axis3 : GCodePlane → GCodeAxis
  | .XY => .Z
  | .ZX => .Y
  | .YZ => .X

/-- `GCodePositioning` of src/types.rs. -/
inductive GCodePositioning where
  | relative
  | absolute
deriving DecidableEq

/-- The command mnemonic of the external `gcode` crate. -/
inductive Mnemonic where
  | general
  | miscellaneous
  | programNumber
  | toolChange
deriving DecidableEq

/-- A single argument (`Word` of the `gcode` crate): a letter and a value. -/
structure Word where
  letter : Char
  value : ℝ

/-- A parsed command of the `gcode` crate: mnemonic, major number, and the
argument list (unbounded, modelling the crate's `VecBuffers`). -/
structure GCode where
  mnemonic : Mnemonic
  majorNumber : ℕ
  args : List Word

/-- `GCode::value_for`: the value of the first argument with this letter. -/
def GCode.valueFor (g : GCode) (c : Char) : Option ℝ :=
  (g.args.find? (fun w => w.letter = c)).map (fun w => w.value)

/-- `GCode::push_argument` / `with_argument`: appends an argument.  With the
`VecBuffers` of the std build the buffer is unbounded and pushing always
succeeds. -/
def GCode.pushArgument (g : GCode) (w : Word) : GCode :=
  { g with args := g.args ++ [w] }

/-- `GCodeState` of src/types.rs. -/
structure GCodeState where
  unit : GCodeUnit
  plane : GCodePlane
  positioning : GCodePositioning
  feedrate : ℝ

/-- `GCodeState::default`: millimeters, XY, absolute, feedrate 3000. -/
def GCodeState.init : GCodeState :=
  { unit := .millimeters, plane := .XY, positioning := .absolute, feedrate := 3000 }

/-- `GCodeState::unit_factor`. -/
def GCodeState.unitFactor (s : GCodeState) : ℝ :=
  match s.unit with
  | .millimeters => 1
  | .inches => 2.54

/-- `GCodeState::get_target`: resolves the target point of a motion command
from its `X`/`Y`/`Z` arguments and the positioning mode. -/
def GCodeState.getTarget (s : GCodeState) (pos : Vec3) (g : GCode) : Vec3 :=
  let u := s.unitFactor
  match s.positioning with
  | .absolute =>
      { x := ((g.valueFor 'X').map (fun e => e * u)).getD pos.x
        y := ((g.valueFor 'Y').map (fun e => e * u)).getD pos.y
        z := ((g.valueFor 'Z').map (fun e => e * u)).getD pos.z }
  | .relative =>
      { x := pos.x + ((g.valueFor 'X').map (fun e => e * u)).getD 0
        y := pos.y + ((g.valueFor 'Y').map (fun e => e * u)).getD 0
        z := pos.z + ((g.valueFor 'Z').map (fun e => e * u)).getD 0 }

/-- `GCodeState::get_center_offset`: reads `I`/`J`/`K`, defaulting to 0. -/
def GCodeState.getCenterOffset (s : GCodeState) (g : GCode) : Vec3 :=
  let u := s.unitFactor
  { x := ((g.valueFor 'I').map (fun e => e * u)).getD 0
    y := ((g.valueFor 'J').map (fun e => e * u)).getD 0
    z := ((g.valueFor 'K').map (fun e => e * u)).getD 0 }

/-- `LiftConfig` of src/types.rs. -/
inductive LiftConfig where
  | absoluteHeight (h : ℝ)
  | relativeHeight (h : ℝ)

/-- `LiftConfig::calcute_height` (name kept from the source). -/
def LiftConfig.calcuteHeight : LiftConfig → ℝ → ℝ
  | .absoluteHeight h, _ => h
  | .relativeHeight h, frm => frm + h

/-- `DragknifeConfig` of src/types.rs. -/
structure DragknifeConfig where
  knifeOffset : ℝ
  liftConfig : LiftConfig
  sharpAngleThreshold : ℝ
  swivelFeedrate : ℝ

/-- `DragknifeState` of src/types.rs. -/
structure DragknifeState where
  nextFeedrate : Option ℝ

/-- `DragknifeState::default`. -/
def DragknifeState.init : DragknifeState := ⟨none⟩

/-- `HomeMovement` of src/types.rs. -/
structure HomeMovement where
  original : GCode
  start : Vec3

/-- `RapidMovement` of src/types.rs. -/
structure RapidMovement where
  original : GCode
  start : Vec3
  end_ : Vec3

/-- `LinearMovement` of src/types.rs. -/
structure LinearMovement where
  original : GCode
  start : Vec3
  end_ : Vec3
  angle : Option ℝ

/-- `ArcDirection` of src/types.rs. -/
inductive ArcDirection where
  | cw
  | ccw
deriving DecidableEq

/-- `ArcMovement` of src/types.rs. -/
structure ArcMovement where
  original : GCode
  direction : ArcDirection
  start : Vec3
  end_ : Vec3
  center : Vec3
  startAngle : ℝ
  endAngle : ℝ

/-- `OtherCommand` of src/types.rs. -/
structure OtherCommand where
  original : GCode
  pos : Vec3
  angle : Option ℝ

/-- `Command` of src/types.rs: the tagged motion record. -/
inductive Command where
  | other (c : OtherCommand)
  | linear (m : LinearMovement)
  | arc (m : ArcMovement)
  | home (m : HomeMovement)
  | rapid (m : RapidMovement)

/-- `Command::original`. -/
def Command.original : Command → GCode
  | .other c => c.original
  | .linear m => m.original
  | .arc m => m.original
  | .home m => m.original
  | .rapid m => m.original

/-- `Movement::start_pos` for `Command`. -/
def Command.startPos : Command → Vec3
  | .other c => c.pos
  | .linear m => m.start
  | .arc m => m.start
  | .home m => m.start
  | .rapid m => m.start

/-- `Movement::end_pos` for `Command`; a `Home` ends at machine zero. -/
def Command.endPos : Command → Vec3
  | .other c => c.pos
  | .linear m => m.end_
  | .arc m => m.end_
  | .home _ => Vec3.zero
  | .rapid m => m.end_

/-- `Movement::start_angle` for `Command`. -/
def Command.startAngle : Command → Option ℝ
  | .other c => c.angle
  | .linear m => m.angle
  | .arc m => some m.startAngle
  | .home _ => none
  | .rapid _ => none

/-- `Movement::end_angle` for `Command`. -/
def Command.endAngle : Command → Option ℝ
  | .other c => c.angle
  | .linear m => m.angle
  | .arc m => some m.endAngle
  | .home _ => none
  | .rapid _ => none

/-- `Movement::end_pos` for `Option<&Command>`: zero when absent. -/
def endPosOpt (p : Option Command) : Vec3 :=
  match p with
  | none => Vec3.zero
  | some c => c.endPos

/-- `Movement::end_angle` for `Option<&Command>`: `None` when absent. -/
def endAngleOpt (p : Option Command) : Option ℝ :=
  match p with
  | none => none
  | some c => c.endAngle

/-- `OtherCommand::update_settings`: applies modal `G17/18/19`, `G20/21`,
`G90/91` by major number. -/
def OtherCommand.updateSettings (c : OtherCommand) (s : GCodeState) : GCodeState :=
  match c.original.majorNumber with
  | 17 => { s with plane := .XY }
  | 18 => { s with plane := .ZX }
  | 19 => { s with plane := .YZ }
  | 20 => { s with unit := .inches }
  | 21 => { s with unit := .millimeters }
  | 90 => { s with positioning := .absolute }
  | 91 => { s with positioning := .relative }
  | _ => s

/-- `Command::update_settings`: returns the new modal state and whether a
feedrate change was applied (`true` only for a motion command carrying `F`). -/
def Command.updateSettings (c : Command) (s : GCodeState) : GCodeState × Bool :=
  match c with
  | .other oc => (oc.updateSettings s, false)
  | _ =>
      match c.original.valueFor 'F' with
      | some f => ({ s with feedrate := f * s.unitFactor }, true)
      | none => (s, false)

/-- `f32::atan2` modelled over ℝ (the principal value in `(-π, π]`, with
`atan2 0 0 = 0`). -/
def atan2 (y x : ℝ) : ℝ :=
  if 0 < x then Real.arctan (y / x)
  else if x < 0 then
    (if 0 ≤ y then Real.arctan (y / x) + Real.pi else Real.arctan (y / x) - Real.pi)
  else
    (if 0 < y then Real.pi / 2 else if y < 0 then -(Real.pi / 2) else 0)

/-- `Vec3::coords_for_plane`. -/
def Vec3.coordsForPlane (v : Vec3) (p : GCodePlane) : ℝ × ℝ :=
  match p with
  | .XY => (v.x, v.y)
  | .ZX => (v.z, v.x)
  | .YZ => (v.y, v.z)

/-- `Vec3::third_coord`. -/
def Vec3.thirdCoord (v : Vec3) (p : GCodePlane) : ℝ :=
  match p with
  | .XY => v.z
  | .ZX => v.y
  | .YZ => v.x

/-- `Vec3::project_plane`: zeroes the out-of-plane coordinate. -/
def Vec3.projectPlane (v : Vec3) (p : GCodePlane) : Vec3 :=
  match p with
  | .XY => { v with z := 0 }
  | .ZX => { v with y := 0 }
  | .YZ => { v with x := 0 }

/-- `Vec3::from_2d`. -/
def Vec3.from2d (a1 a2 : ℝ) (p : GCodePlane) : Vec3 :=
  match p with
  | .XY => ⟨a1, a2, 0⟩
  | .ZX => ⟨a2, 0, a1⟩
  | .YZ => ⟨0, a1, a2⟩

/-- `Vec3::unit_angle`: the in-plane unit vector at polar angle `angle`. -/
def Vec3.unitAngle (angle : ℝ) (p : GCodePlane) : Vec3 :=
  Vec3.from2d (Real.cos angle) (Real.sin angle) p

/-- `Vec3::angle_to`. -/
def Vec3.angleTo (a b : Vec3) (p : GCodePlane) : ℝ :=
  let ac := a.coordsForPlane p
  let bc := b.coordsForPlane p
  atan2 (bc.2 - ac.2) (bc.1 - ac.1)

/-- `Vec3::magnitude`. -/
def Vec3.magnitude (v : Vec3) : ℝ :=
  Real.sqrt (v.x ^ 2 + v.y ^ 2 + v.z ^ 2)

/-- `Vec3::normalized`: the zero vector normalizes to zero. -/
def Vec3.normalized (v : Vec3) : Vec3 :=
  if v.magnitude = 0 then Vec3.zero else v / v.magnitude

/-- `f32::EPSILON` is exactly `2⁻²³`. -/
def f32Epsilon : ℝ := 1 / 8388608

/-- `f32::rem_euclid` over ℝ: for a positive modulus `b` this is
`a - b * ⌊a / b⌋`, the least non-negative residue (the source only uses it
with modulus `TAU = 2π > 0`). -/
def remEuclid (a b : ℝ) : ℝ := a - b * (⌊a / b⌋ : ℤ)

/-- `signed_angle` of src/lib.rs: `(a - b + π).rem_euclid(2π) - π`. -/
def signedAngle (a b : ℝ) : ℝ :=
  remEuclid (a - b + Real.pi) (2 * Real.pi) - Real.pi

/-- `Command::from_gcode`: classifies one parsed command into a motion
record, given the previous record and the modal state; returns the record
and the (possibly updated) modal state. -/
def Command.fromGcode (g : GCode) (prev : Option Command) (s : GCodeState) :
    Command × GCodeState :=
  let start := endPosOpt prev
  match g.mnemonic with
  | .miscellaneous => (.other ⟨g, start, endAngleOpt prev⟩, s)
  | .programNumber => (.other ⟨g, start, endAngleOpt prev⟩, s)
  | .toolChange => (.other ⟨g, start, endAngleOpt prev⟩, s)
  | .general =>
      match g.majorNumber with
      | 0 =>
          let e := s.getTarget start g
          (.rapid ⟨g, start, e⟩, s)
      | 1 =>
          let e := s.getTarget start g
          let angle :=
            if ((start - e).projectPlane s.plane).magnitude ≤ f32Epsilon then
              endAngleOpt prev
            else
              some (start.angleTo e s.plane)
          (.linear ⟨g, start, e, angle⟩, s)
      | 2 =>
          let target := s.getTarget start g
          let centerOff := s.getCenterOffset g
          let center := start + centerOff
          let startAngle := center.angleTo start s.plane - Real.pi / 2
          let endAngle := center.angleTo target s.plane - Real.pi / 2
          let radius := ((start - center).projectPlane s.plane).magnitude
          let e := (target - center).normalized * radius + center
          (.arc ⟨g, .cw, start, e, center, startAngle, endAngle⟩, s)
      | 3 =>
          let target := s.getTarget start g
          let centerOff := s.getCenterOffset g
          let center := start + centerOff
          let startAngle := center.angleTo start s.plane + Real.pi / 2
          let endAngle := center.angleTo target s.plane + Real.pi / 2
          let radius := ((start - center).projectPlane s.plane).magnitude
          let e := (target - center).normalized * radius + center
          (.arc ⟨g, .ccw, start, e, center, startAngle, endAngle⟩, s)
      | 28 => (.home ⟨g, start⟩, s)
      | _ =>
          let oc : OtherCommand := ⟨g, start, endAngleOpt prev⟩
          (.other oc, oc.updateSettings s)

/-- The five argument letters that the rewriter replaces on an emitted
primary motion (`add_misc_args_and_update_settings`). -/
def excludedLetters (p : GCodePlane) : List Char :=
  [p.axis1.mainName, p.axis2.mainName, p.axis1.centerName, p.axis2.centerName, 'F']

/-- `Command::add_misc_args_and_update_settings`: applies the ordered
feedrate tests, then appends every original argument whose letter is not
replaced by the rewriter. -/
def Command.addMiscArgsAndUpdateSettings (newGcode : GCode) (c : Command)
    (st : DragknifeState) (s : GCodeState) : GCode × DragknifeState × GCodeState :=
  let us := c.updateSettings s
  let s1 := us.1
  let step1 : GCode × DragknifeState :=
    if us.2 then
      (newGcode.pushArgument ⟨'F', s1.feedrate / s1.unitFactor⟩, ⟨none⟩)
    else
      match st.nextFeedrate with
      | some f => (newGcode.pushArgument ⟨'F', f / s1.unitFactor⟩, ⟨none⟩)
      | none => (newGcode, st)
  let plane := s1.plane
  let final :=
    c.original.args.foldl
      (fun g arg => if arg.letter ∈ excludedLetters plane then g else g.pushArgument arg)
      step1.1
  (final, step1.2, s1)

/-- `Command::create_swivel_path`: the lift / swivel-arc / plunge sequence,
emitted when the previous end tangent and the next start tangent are both
defined and disagree by more than the threshold. -/
def Command.createSwivelPath (previousAngle : Option ℝ) (next : Command)
    (s : GCodeState) (st : DragknifeState) (cfg : DragknifeConfig) :
    List GCode × DragknifeState :=
  match previousAngle with
  | none => ([], st)
  | some fromAngle =>
    match next.startAngle with
    | none => ([], st)
    | some toAngle =>
      let sa := signedAngle fromAngle toAngle
      if |sa| > cfg.sharpAngleThreshold then
        let startHeight := next.startPos.thirdCoord s.plane
        let lift : GCode :=
          ⟨.general, 1,
            [⟨s.plane.axis3.mainName, cfg.liftConfig.calcuteHeight startHeight⟩,
             ⟨'F', cfg.swivelFeedrate / s.unitFactor⟩]⟩
        let centerOffset :=
          (Vec3.unitAngle (fromAngle + Real.pi) s.plane * cfg.knifeOffset).coordsForPlane s.plane
        let target :=
          (Vec3.unitAngle toAngle s.plane * cfg.knifeOffset + next.startPos).coordsForPlane s.plane
        let swivelArc : GCode :=
          ⟨.general, if sa > 0 then 2 else 3,
            [⟨s.plane.axis1.mainName, target.1⟩,
             ⟨s.plane.axis2.mainName, target.2⟩,
             ⟨s.plane.axis1.centerName, centerOffset.1⟩,
             ⟨s.plane.axis2.centerName, centerOffset.2⟩]⟩
        let plunge : GCode := ⟨.general, 1, [⟨s.plane.axis3.mainName, startHeight⟩]⟩
        ([lift, swivelArc, plunge], ⟨some (s.feedrate / s.unitFactor)⟩)
      else ([], st)

/-- `Command::to_fixed_gcode`: rewrites one record into its emitted output
commands, threading the modal state and the dragknife state. -/
def Command.toFixedGcode (c : Command) (previousAngle : Option ℝ)
    (s : GCodeState) (st : DragknifeState) (cfg : DragknifeConfig) :
    List GCode × GCodeState × DragknifeState :=
  match c with
  | .other oc =>
      if oc.original.majorNumber = 91 then ([], s, st)
      else ([oc.original], oc.updateSettings s, st)
  | .linear m =>
      let sw := Command.createSwivelPath previousAngle c s st cfg
      let target :=
        match m.angle with
        | some angle => m.end_ + Vec3.unitAngle angle s.plane * cfg.knifeOffset
        | none => m.end_
      let t2 := target.coordsForPlane s.plane
      let newG : GCode :=
        ⟨.general, 1, [⟨s.plane.axis1.mainName, t2.1⟩, ⟨s.plane.axis2.mainName, t2.2⟩]⟩
      let fin := Command.addMiscArgsAndUpdateSettings newG c sw.2 s
      (sw.1 ++ [fin.1], fin.2.2, fin.2.1)
  | .arc m =>
      let sw := Command.createSwivelPath previousAngle c s st cfg
      let newStart := m.start + Vec3.unitAngle m.startAngle s.plane * cfg.knifeOffset
      let newEnd := m.end_ + Vec3.unitAngle m.endAngle s.plane * cfg.knifeOffset
      let centerOffset := m.center - newStart
      let e2 := newEnd.coordsForPlane s.plane
      let c2 := centerOffset.coordsForPlane s.plane
      let newG : GCode :=
        ⟨.general, (match m.direction with | .cw => 2 | .ccw => 3),
          [⟨s.plane.axis1.mainName, e2.1⟩, ⟨s.plane.axis2.mainName, e2.2⟩,
           ⟨s.plane.axis1.centerName, c2.1⟩, ⟨s.plane.axis2.centerName, c2.2⟩]⟩
      let fin := Command.addMiscArgsAndUpdateSettings newG c sw.2 s
      (sw.1 ++ [fin.1], fin.2.2, fin.2.1)
  | .home m => ([m.original], s, st)
  | .rapid m => ([m.original], s, st)

/-- `DragknifePath::from_gcode`, inner loop: pushes each classified record,
using the last record pushed so far as the previous command. -/
def pathFromGcodeAux : List GCode → List Command → GCodeState → List Command
  | [], acc, _ => acc
  | g :: rest, acc, s =>
      let cs := Command.fromGcode g acc.getLast? s
      pathFromGcodeAux rest (acc ++ [cs.1]) cs.2

/-- `DragknifePath::from_gcode`: the classifier pass. -/
def pathFromGcode (gs : List GCode) : List Command :=
  pathFromGcodeAux gs [] GCodeState.init

/-- `DragknifePath::to_fixed_gcode`, inner loop: rewrites each record in
turn, carrying the previous record's end angle and both states. -/
def pathToFixedAux (cfg : DragknifeConfig) :
    List Command → Option ℝ → GCodeState → DragknifeState → List GCode
  | [], _, _, _ => []
  | c :: rest, pa, s, st =>
      let r := c.toFixedGcode pa s st cfg
      r.1 ++ pathToFixedAux cfg rest c.endAngle r.2.1 r.2.2

/-- `DragknifePath::to_fixed_gcode`: the rewrite pass. -/
def pathToFixed (cmds : List Command) (cfg : DragknifeConfig) : List GCode :=
  pathToFixedAux cfg cmds none GCodeState.init DragknifeState.init

/-- The whole pipeline: classify, then rewrite (as driven by the example
program and the app). -/
def repath (gs : List GCode) (cfg : DragknifeConfig) : List GCode :=
  pathToFixed (pathFromGcode gs) cfg

/-- `pathToFixedAux` together with its final states (used to speak about
the rewriter state at record boundaries). -/
def pathToFixedStates (cfg : DragknifeConfig) :
    List Command → Option ℝ → GCodeState → DragknifeState →
      List GCode × GCodeState × DragknifeState
  | [], _, s, st => ([], s, st)
  | c :: rest, pa, s, st =>
      let r := c.toFixedGcode pa s st cfg
      let rec' := pathToFixedStates cfg rest c.endAngle r.2.1 r.2.2
      (r.1 ++ rec'.1, rec'.2)

/-- Extractor: the geometric data `(start, end, center)` of an `Arc` record. -/
def Command.arcData : Command → Option (Vec3 × Vec3 × Vec3)
  | .arc m => some (m.start, m.end_, m.center)
  | _ => none

/-- Extractor: the `(start, end, angle)` data of a `Linear` record. -/
def Command.linearData : Command → Option (Vec3 × Vec3 × Option ℝ)
  | .linear m => some (m.start, m.end_, m.angle)
  | _ => none

/-- Whether a record is a `Home`. -/
def Command.isHome : Command → Prop
  | .home _ => True
  | _ => False

/-- Whether a record is an `Other` whose original command has major
number 91 (the records the rewriter drops). -/
def Command.isDropped : Command → Prop
  | .other oc => oc.original.majorNumber = 91
  | _ => False

/-- Whether a parsed command is the `G91` relative-positioning command. -/
def GCode.isG91 (g : GCode) : Prop :=
  g.mnemonic = .general ∧ g.majorNumber = 91

/-- Classifier invariant used for the no-`G91`-output claim: every record
that is not `Other` has an original whose major number is not 91 (the
classifier sends every general command with major number 91 to `Other`). -/
def Command.originalNot91 : Command → Prop
  | .other _ => True
  | c => c.original.majorNumber ≠ 91

/-- The number of `F` arguments a command carries. -/
def GCode.countF (g : GCode) : ℕ :=
  (g.args.filter (fun w => w.letter = 'F')).length

end

/-! ## Helper lemmas -/

section Helpers

@[simp] theorem Vec3.add_def (a b : Vec3) : a + b = ⟨a.x + b.x, a.y + b.y, a.z + b.z⟩ := rfl

@[simp] theorem Vec3.sub_def (a b : Vec3) : a - b = ⟨a.x - b.x, a.y - b.y, a.z - b.z⟩ := rfl

@[simp] theorem Vec3.smul_def (a : Vec3) (c : ℝ) : a * c = ⟨a.x * c, a.y * c, a.z * c⟩ := rfl

@[simp] theorem Vec3.sdiv_def (a : Vec3) (c : ℝ) : a / c = ⟨a.x / c, a.y / c, a.z / c⟩ := rfl

theorem Vec3.magnitude_nonneg (v : Vec3) : 0 ≤ v.magnitude :=
  Real.sqrt_nonneg _

theorem Vec3.magnitude_mk (x y z : ℝ) :
    Vec3.magnitude ⟨x, y, z⟩ = Real.sqrt (x ^ 2 + y ^ 2 + z ^ 2) := rfl

theorem Vec3.magnitude_eq_zero {v : Vec3} : v.magnitude = 0 ↔ v = Vec3.zero := by
  obtain ⟨x, y, z⟩ := v
  rw [Vec3.magnitude_mk, Real.sqrt_eq_zero (by positivity), Vec3.zero]
  constructor
  · intro h
    have hx : x = 0 := by nlinarith [sq_nonneg x, sq_nonneg y, sq_nonneg z]
    have hy : y = 0 := by nlinarith [sq_nonneg x, sq_nonneg y, sq_nonneg z]
    have hz : z = 0 := by nlinarith [sq_nonneg x, sq_nonneg y, sq_nonneg z]
    simp [hx, hy, hz]
  · intro h
    simp only [Vec3.mk.injEq] at h
    simp [h.1, h.2.1, h.2.2]

theorem Vec3.magnitude_smul (v : Vec3) (c : ℝ) :
    (v * c).magnitude = v.magnitude * |c| := by
  obtain ⟨x, y, z⟩ := v
  simp only [Vec3.smul_def, Vec3.magnitude_mk]
  rw [show (x * c) ^ 2 + (y * c) ^ 2 + (z * c) ^ 2 = (x ^ 2 + y ^ 2 + z ^ 2) * c ^ 2 by ring,
    Real.sqrt_mul (by positivity), Real.sqrt_sq_eq_abs]

theorem Vec3.magnitude_normalized {v : Vec3} (h : v.magnitude ≠ 0) :
    v.normalized.magnitude = 1 := by
  have hpos : 0 < v.magnitude := lt_of_le_of_ne (Vec3.magnitude_nonneg v) (Ne.symm h)
  have : v.normalized = v * (v.magnitude)⁻¹ := by
    rw [Vec3.normalized, if_neg h]
    obtain ⟨x, y, z⟩ := v
    simp [div_eq_mul_inv]
  rw [this, Vec3.magnitude_smul, abs_inv, abs_of_pos hpos]
  field_simp

theorem remEuclid_eq_fract (a b : ℝ) (hb : b ≠ 0) :
    remEuclid a b = b * Int.fract (a / b) := by
  rw [remEuclid, Int.fract]
  field_simp

theorem remEuclid_nonneg (a : ℝ) {b : ℝ} (hb : 0 < b) : 0 ≤ remEuclid a b := by
  rw [remEuclid_eq_fract a b hb.ne']
  exact mul_nonneg hb.le (Int.fract_nonneg _)

theorem remEuclid_lt (a : ℝ) {b : ℝ} (hb : 0 < b) : remEuclid a b < b := by
  rw [remEuclid_eq_fract a b hb.ne']
  calc b * Int.fract (a / b) < b * 1 := by
        exact (mul_lt_mul_left hb).mpr (Int.fract_lt_one _)
    _ = b := mul_one b

theorem remEuclid_add_right (a : ℝ) {b : ℝ} (hb : b ≠ 0) :
    remEuclid (a + b) b = remEuclid a b := by
  rw [remEuclid, remEuclid]
  have : (a + b) / b = a / b + 1 := by field_simp
  rw [this, Int.floor_add_one]
  push_cast
  ring

theorem fromGcode_startPos (g : GCode) (prev : Option Command) (s : GCodeState) :
    (Command.fromGcode g prev s).1.startPos = endPosOpt prev := by
  unfold Command.fromGcode
  dsimp only
  split
  · rfl
  · rfl
  · rfl
  · split <;> rfl

theorem pathFromGcodeAux_chain (gs : List GCode) (acc : List Command) (s : GCodeState)
    (h : List.Chain' (fun a b => b.startPos = a.endPos) acc) :
    List.Chain' (fun a b => b.startPos = a.endPos) (pathFromGcodeAux gs acc s) := by
  induction gs generalizing acc s with
  | nil => exact h
  | cons g rest ih =>
      rw [pathFromGcodeAux]
      refine ih _ _ (List.Chain'.append h (List.chain'_singleton _) ?_)
      intro x hx y hy
      simp only [List.head?_cons, Option.mem_def, Option.some.injEq] at hy
      subst hy
      rw [fromGcode_startPos, hx]
      rfl

theorem addMisc_clears (g : GCode) (c : Command) (st : DragknifeState) (s : GCodeState) :
    (Command.addMiscArgsAndUpdateSettings g c st s).2.1.nextFeedrate = none := by
  rw [Command.addMiscArgsAndUpdateSettings]
  dsimp only
  split
  · rfl
  · split <;> simp_all

theorem axis1_main_ne_axis2_main (p : GCodePlane) : p.axis1.mainName ≠ p.axis2.mainName := by
  cases p <;> decide

theorem axis1_main_ne_axis1_center (p : GCodePlane) : p.axis1.mainName ≠ p.axis1.centerName := by
  cases p <;> decide

theorem axis2_main_ne_axis1_center (p : GCodePlane) : p.axis2.mainName ≠ p.axis1.centerName := by
  cases p <;> decide

theorem axis1_main_ne_axis2_center (p : GCodePlane) : p.axis1.mainName ≠ p.axis2.centerName := by
  cases p <;> decide

theorem axis2_main_ne_axis2_center (p : GCodePlane) : p.axis2.mainName ≠ p.axis2.centerName := by
  cases p <;> decide

theorem axis1_center_ne_axis2_center (p : GCodePlane) :
    p.axis1.centerName ≠ p.axis2.centerName := by
  cases p <;> decide

theorem foldl_push_args (ws : List Word) (g : GCode) (p : GCodePlane) :
    (ws.foldl (fun h arg => if arg.letter ∈ excludedLetters p then h else h.pushArgument arg)
        g).args
      = g.args ++ ws.filter (fun w => decide (w.letter ∉ excludedLetters p)) := by
  induction ws generalizing g with
  | nil => simp
  | cons w rest ih =>
      rw [List.foldl_cons, List.filter_cons]
      by_cases hw : w.letter ∈ excludedLetters p
      · rw [if_pos hw, ih]
        simp [hw]
      · rw [if_neg hw, ih]
        simp [hw, GCode.pushArgument]

theorem foldl_push_full (ws : List Word) (g : GCode) (p : GCodePlane) :
    (ws.foldl (fun h arg => if arg.letter ∈ excludedLetters p then h else h.pushArgument arg) g)
      = ⟨g.mnemonic, g.majorNumber,
          g.args ++ ws.filter (fun w => decide (w.letter ∉ excludedLetters p))⟩ := by
  induction ws generalizing g with
  | nil => simp
  | cons w rest ih =>
      rw [List.foldl_cons, List.filter_cons]
      by_cases hw : w.letter ∈ excludedLetters p
      · rw [if_pos hw, ih]
        simp [hw]
      · rw [if_neg hw, ih]
        simp [hw, GCode.pushArgument]

theorem addMisc_shape (g : GCode) (c : Command) (st : DragknifeState) (s : GCodeState) :
    ∃ tail, (Command.addMiscArgsAndUpdateSettings g c st s).1
      = ⟨g.mnemonic, g.majorNumber, g.args ++ tail⟩ := by
  rw [Command.addMiscArgsAndUpdateSettings]
  dsimp only
  rw [foldl_push_full]
  split
  · exact ⟨_, by dsimp only [GCode.pushArgument]; rw [List.append_assoc]⟩
  · split
    · exact ⟨_, by dsimp only [GCode.pushArgument]; rw [List.append_assoc]⟩
    · exact ⟨_, rfl⟩

theorem addMisc_args_append (g : GCode) (c : Command) (st : DragknifeState) (s : GCodeState) :
    ∃ tail, (Command.addMiscArgsAndUpdateSettings g c st s).1.args = g.args ++ tail := by
  obtain ⟨tail, h⟩ := addMisc_shape g c st s
  exact ⟨tail, by rw [h]⟩

theorem addMisc_majorNumber (g : GCode) (c : Command) (st : DragknifeState) (s : GCodeState) :
    (Command.addMiscArgsAndUpdateSettings g c st s).1.majorNumber = g.majorNumber := by
  obtain ⟨tail, h⟩ := addMisc_shape g c st s
  rw [h]

theorem addMisc_mnemonic (g : GCode) (c : Command) (st : DragknifeState) (s : GCodeState) :
    (Command.addMiscArgsAndUpdateSettings g c st s).1.mnemonic = g.mnemonic := by
  obtain ⟨tail, h⟩ := addMisc_shape g c st s
  rw [h]

theorem addMisc_valueFor {mn : Mnemonic} {n : ℕ} {ws : List Word} (c : Command)
    (st : DragknifeState) (s : GCodeState) {ch : Char} {w : Word}
    (h : ws.find? (fun x => x.letter = ch) = some w) :
    ((Command.addMiscArgsAndUpdateSettings ⟨mn, n, ws⟩ c st s).1).valueFor ch = some w.value := by
  obtain ⟨tail, ht⟩ := addMisc_args_append ⟨mn, n, ws⟩ c st s
  rw [GCode.valueFor, ht]
  dsimp only
  rw [List.find?_append, h]
  rfl

theorem addMisc_valueFor_head {mn : Mnemonic} {n : ℕ} (w : Word) (ws : List Word)
    (c : Command) (st : DragknifeState) (s : GCodeState) :
    ((Command.addMiscArgsAndUpdateSettings ⟨mn, n, w :: ws⟩ c st s).1).valueFor w.letter
      = some w.value :=
  addMisc_valueFor c st s (List.find?_cons_of_pos _ (by simp))

theorem addMisc_valueFor_second {mn : Mnemonic} {n : ℕ} (w1 w2 : Word) (ws : List Word)
    (c : Command) (st : DragknifeState) (s : GCodeState) (h1 : w1.letter ≠ w2.letter) :
    ((Command.addMiscArgsAndUpdateSettings ⟨mn, n, w1 :: w2 :: ws⟩ c st s).1).valueFor w2.letter
      = some w2.value :=
  addMisc_valueFor c st s (by
    rw [List.find?_cons_of_neg _ (by simp [h1]), List.find?_cons_of_pos _ (by simp)])

theorem addMisc_valueFor_third {mn : Mnemonic} {n : ℕ} (w1 w2 w3 : Word) (ws : List Word)
    (c : Command) (st : DragknifeState) (s : GCodeState) (h1 : w1.letter ≠ w3.letter)
    (h2 : w2.letter ≠ w3.letter) :
    ((Command.addMiscArgsAndUpdateSettings ⟨mn, n, w1 :: w2 :: w3 :: ws⟩ c st
        s).1).valueFor w3.letter = some w3.value :=
  addMisc_valueFor c st s (by
    rw [List.find?_cons_of_neg _ (by simp [h1]), List.find?_cons_of_neg _ (by simp [h2]),
      List.find?_cons_of_pos _ (by simp)])

theorem addMisc_valueFor_fourth {mn : Mnemonic} {n : ℕ} (w1 w2 w3 w4 : Word) (ws : List Word)
    (c : Command) (st : DragknifeState) (s : GCodeState) (h1 : w1.letter ≠ w4.letter)
    (h2 : w2.letter ≠ w4.letter) (h3 : w3.letter ≠ w4.letter) :
    ((Command.addMiscArgsAndUpdateSettings ⟨mn, n, w1 :: w2 :: w3 :: w4 :: ws⟩ c st
        s).1).valueFor w4.letter = some w4.value :=
  addMisc_valueFor c st s (by
    rw [List.find?_cons_of_neg _ (by simp [h1]), List.find?_cons_of_neg _ (by simp [h2]),
      List.find?_cons_of_neg _ (by simp [h3]), List.find?_cons_of_pos _ (by simp)])

theorem fromGcode_originalNot91 (g : GCode) (prev : Option Command) (s : GCodeState) :
    (Command.fromGcode g prev s).1.originalNot91 := by
  unfold Command.fromGcode
  dsimp only
  split
  · trivial
  · trivial
  · trivial
  · split
    · rename_i h
      simp [Command.originalNot91, Command.original, h]
    · rename_i h
      simp [Command.originalNot91, Command.original, h]
    · rename_i h
      simp [Command.originalNot91, Command.original, h]
    · rename_i h
      simp [Command.originalNot91, Command.original, h]
    · rename_i h
      simp [Command.originalNot91, Command.original, h]
    · trivial

theorem pathFromGcodeAux_forall (P : Command → Prop)
    (hP : ∀ (g : GCode) (prev : Option Command) (s : GCodeState),
      P (Command.fromGcode g prev s).1) :
    ∀ (gs : List GCode) (acc : List Command) (s : GCodeState),
      (∀ c ∈ acc, P c) → ∀ c ∈ pathFromGcodeAux gs acc s, P c := by
  intro gs
  induction gs with
  | nil => intro acc s hacc; exact hacc
  | cons g rest ih =>
      intro acc s hacc
      rw [pathFromGcodeAux]
      refine ih _ _ ?_
      intro c hc
      rcases List.mem_append.mp hc with h | h
      · exact hacc c h
      · rw [List.mem_singleton.mp h]
        exact hP g acc.getLast? s

theorem swivel_members (pa : Option ℝ) (c : Command) (s : GCodeState) (st : DragknifeState)
    (cfg : DragknifeConfig) :
    ∀ g ∈ (Command.createSwivelPath pa c s st cfg).1,
      g.mnemonic = Mnemonic.general ∧ g.majorNumber ≠ 91 := by
  intro g hg
  cases pa with
  | none => simp [Command.createSwivelPath] at hg
  | some a =>
      rw [Command.createSwivelPath] at hg
      cases hc : c.startAngle with
      | none => simp [hc] at hg
      | some b =>
          simp only [hc] at hg
          split at hg
          · simp only [List.mem_cons, List.not_mem_nil, or_false] at hg
            rcases hg with rfl | rfl | rfl
            · exact ⟨rfl, by norm_num⟩
            · refine ⟨rfl, ?_⟩
              dsimp only
              split <;> norm_num
            · exact ⟨rfl, by norm_num⟩
          · simp at hg

theorem toFixed_no91 (c : Command) (pa : Option ℝ) (s : GCodeState) (st : DragknifeState)
    (cfg : DragknifeConfig) (hc : c.originalNot91) :
    ∀ g ∈ (c.toFixedGcode pa s st cfg).1, ¬ g.isG91 := by
  intro g hg
  cases c with
  | other oc =>
      rw [Command.toFixedGcode] at hg
      split at hg
      · simp at hg
      · rename_i h91
        rw [List.mem_singleton.mp hg]
        rintro ⟨-, h⟩
        exact h91 h
  | linear m =>
      simp only [Command.toFixedGcode] at hg
      rcases List.mem_append.mp hg with h | h
      · obtain ⟨-, h2⟩ := swivel_members pa (Command.linear m) s st cfg g h
        rintro ⟨-, h⟩
        exact h2 h
      · rw [List.mem_singleton.mp h]
        rintro ⟨-, hmaj⟩
        rw [addMisc_majorNumber] at hmaj
        simp at hmaj
  | arc m =>
      simp only [Command.toFixedGcode] at hg
      rcases List.mem_append.mp hg with h | h
      · obtain ⟨-, h2⟩ := swivel_members pa (Command.arc m) s st cfg g h
        rintro ⟨-, h⟩
        exact h2 h
      · rw [List.mem_singleton.mp h]
        rintro ⟨-, hmaj⟩
        rw [addMisc_majorNumber] at hmaj
        dsimp only at hmaj
        cases hd : m.direction <;> rw [hd] at hmaj <;> simp at hmaj
  | home m =>
      rw [List.mem_singleton.mp hg]
      rintro ⟨-, h⟩
      exact hc h
  | rapid m =>
      rw [List.mem_singleton.mp hg]
      rintro ⟨-, h⟩
      exact hc h

theorem pathToFixedAux_no91 (cfg : DragknifeConfig) (cmds : List Command) :
    ∀ (pa : Option ℝ) (s : GCodeState) (st : DragknifeState),
      (∀ c ∈ cmds, c.originalNot91) →
        ∀ g ∈ pathToFixedAux cfg cmds pa s st, ¬ g.isG91 := by
  induction cmds with
  | nil => intro pa s st _ g hg; simp [pathToFixedAux] at hg
  | cons c rest ih =>
      intro pa s st hcmds g hg
      rw [pathToFixedAux] at hg
      rcases List.mem_append.mp hg with h | h
      · exact toFixed_no91 c pa s st cfg (hcmds c (List.mem_cons_self c rest)) g h
      · exact ih _ _ _ (fun c' hc' => hcmds c' (List.mem_cons_of_mem c hc')) g h

theorem Vec3.add_sub_cancel_right (a c : Vec3) : (a + c) - c = a := by
  obtain ⟨ax, ay, az⟩ := a
  obtain ⟨cx, cy, cz⟩ := c
  simp only [Vec3.add_def, Vec3.sub_def, Vec3.mk.injEq]
  exact ⟨by ring, by ring, by ring⟩

theorem Vec3.sub_eq_zero {a b : Vec3} : a - b = Vec3.zero ↔ a = b := by
  obtain ⟨ax, ay, az⟩ := a
  obtain ⟨bx, by', bz⟩ := b
  simp only [Vec3.zero, Vec3.sub_def, Vec3.mk.injEq]
  constructor
  · rintro ⟨h1, h2, h3⟩
    exact ⟨by linarith, by linarith, by linarith⟩
  · rintro ⟨h1, h2, h3⟩
    exact ⟨by linarith, by linarith, by linarith⟩

theorem sqrt_eval {x r : ℝ} (h : x = r ^ 2) (hr : 0 ≤ r) : Real.sqrt x = r := by
  rw [h, Real.sqrt_sq hr]

theorem atan2_zero_pos {x : ℝ} (hx : 0 < x) : atan2 0 x = 0 := by
  rw [atan2, if_pos hx]
  simp

theorem atan2_pos_zero {y : ℝ} (hy : 0 < y) : atan2 y 0 = Real.pi / 2 := by
  rw [atan2, if_neg (lt_irrefl 0), if_neg (lt_irrefl 0), if_pos hy]

theorem atan2_zero_neg {x : ℝ} (hx : x < 0) : atan2 0 x = Real.pi := by
  rw [atan2, if_neg (by linarith), if_pos hx, if_pos le_rfl]
  simp

theorem atan2_zero_zero : atan2 0 0 = 0 := by
  rw [atan2, if_neg (lt_irrefl 0), if_neg (lt_irrefl 0), if_neg (lt_irrefl 0),
    if_neg (lt_irrefl 0)]

theorem mainName_ne_F (a : GCodeAxis) : a.mainName ≠ 'F' := by
  cases a <;> decide

theorem centerName_ne_F (a : GCodeAxis) : a.centerName ≠ 'F' := by
  cases a <;> decide

theorem F_mem_excluded (p : GCodePlane) : 'F' ∈ excludedLetters p := by
  simp [excludedLetters]

theorem createSwivel_state (pa : Option ℝ) (c : Command) (s : GCodeState)
    (st : DragknifeState) (cfg : DragknifeConfig) :
    ((Command.createSwivelPath pa c s st cfg).1 = [] ∧
        (Command.createSwivelPath pa c s st cfg).2 = st) ∨
      ((Command.createSwivelPath pa c s st cfg).1 ≠ [] ∧
        (Command.createSwivelPath pa c s st cfg).2
          = ⟨some (s.feedrate / s.unitFactor)⟩) := by
  cases pa with
  | none => exact Or.inl ⟨rfl, rfl⟩
  | some a =>
      rw [Command.createSwivelPath]
      cases hc : c.startAngle with
      | none => exact Or.inl ⟨rfl, rfl⟩
      | some b =>
          dsimp only
          split
          · exact Or.inr ⟨by simp, rfl⟩
          · exact Or.inl ⟨rfl, rfl⟩

theorem addMisc_swivel_F {mn : Mnemonic} {n : ℕ} {ws : List Word} (c : Command) (f : ℝ)
    (s : GCodeState) (hus : c.updateSettings s = (s, false))
    (hws : ∀ w ∈ ws, w.letter ≠ 'F') :
    ((Command.addMiscArgsAndUpdateSettings ⟨mn, n, ws⟩ c ⟨some f⟩ s).1).valueFor 'F'
        = some (f / s.unitFactor)
    ∧ ((Command.addMiscArgsAndUpdateSettings ⟨mn, n, ws⟩ c ⟨some f⟩ s).1).countF = 1 := by
  rw [Command.addMiscArgsAndUpdateSettings]
  dsimp only
  rw [hus]
  dsimp only
  simp only [Bool.false_eq_true, if_false]
  rw [foldl_push_full]
  dsimp only [GCode.pushArgument]
  have hfindF : ws.find? (fun x => x.letter = 'F') = none := by
    rw [List.find?_eq_none]
    intro w hw
    simp [hws w hw]
  have hfilterF : ws.filter (fun w => w.letter = 'F') = [] := by
    rw [List.filter_eq_nil_iff]
    intro w hw
    simp [hws w hw]
  constructor
  · rw [GCode.valueFor]
    dsimp only
    rw [List.find?_append, List.find?_append, hfindF]
    rw [List.find?_cons_of_pos _ (by simp)]
    rfl
  · rw [GCode.countF]
    dsimp only
    rw [List.filter_append, List.filter_append, hfilterF]
    rw [List.filter_cons_of_pos (by simp), List.filter_nil]
    have : (c.original.args.filter
          (fun w => decide (w.letter ∉ excludedLetters s.plane))).filter
        (fun w => w.letter = 'F') = [] := by
      rw [List.filter_eq_nil_iff]
      intro w hw
      have h2 := List.of_mem_filter hw
      simp only [decide_eq_true_eq] at h2
      simp only [decide_eq_true_eq]
      intro hwF
      exact h2 (hwF ▸ F_mem_excluded s.plane)
    rw [this]
    rfl

theorem getLast?_nested {α : Type} (l1 l2 l3 : List α) (x : α) :
    (l1 ++ (l2 ++ ((l3 ++ [x]) ++ []))).getLast? = some x := by
  simp [List.getLast?_append, List.getLast?_concat]

theorem createSwivel_length (pa : Option ℝ) (c : Command) (s : GCodeState)
    (st : DragknifeState) (cfg : DragknifeConfig) :
    (Command.createSwivelPath pa c s st cfg).1.length = 0 ∨
      (Command.createSwivelPath pa c s st cfg).1.length = 3 := by
  cases pa with
  | none => exact Or.inl rfl
  | some a =>
      rw [Command.createSwivelPath]
      cases hc : c.startAngle with
      | none => exact Or.inl rfl
      | some b =>
          dsimp only
          split
          · exact Or.inr rfl
          · exact Or.inl rfl

theorem pathFromGcodeAux_length (gs : List GCode) :
    ∀ (acc : List Command) (s : GCodeState),
      (pathFromGcodeAux gs acc s).length = acc.length + gs.length := by
  induction gs with
  | nil => intro acc s; simp [pathFromGcodeAux]
  | cons g rest ih =>
      intro acc s
      rw [pathFromGcodeAux, ih]
      simp
      omega

end Helpers

/-! ## Claims -/

/-- C8: Signed-angle normalization — for any angles `a` and `b`,
`signed_delta(a, b) = ((a − b + π) mod 2π) − π` lies in `[−π, π)`, and
`signed_delta(a + 2π, b) = signed_delta(a, b)`. -/
theorem signedAngle_mem_Ico_and_periodic (a b : ℝ) :
    signedAngle a b ∈ Set.Ico (-Real.pi) Real.pi ∧
      signedAngle (a + 2 * Real.pi) b = signedAngle a b := by
  have hpi : 0 < 2 * Real.pi := by positivity
  constructor
  · constructor
    · have := remEuclid_nonneg (a - b + Real.pi) hpi
      rw [signedAngle]
      linarith
    · have := remEuclid_lt (a - b + Real.pi) hpi
      rw [signedAngle]
      linarith
  · rw [signedAngle, signedAngle,
      show a + 2 * Real.pi - b + Real.pi = (a - b + Real.pi) + 2 * Real.pi by ring,
      remEuclid_add_right _ hpi.ne']

/-- C5: Chain continuity — for every input program, the classifier's record
sequence satisfies `records[i].end_pos = records[i+1].start_pos` for every
adjacent pair (in particular also across `Home`, whose end position is
machine zero, the origin). -/
theorem chain_continuity (gs : List GCode) :
    (∀ (i : ℕ) (h : i < (pathFromGcode gs).length - 1),
        ((pathFromGcode gs).get ⟨i + 1, by omega⟩).startPos =
          ((pathFromGcode gs).get ⟨i, by omega⟩).endPos)
    ∧ ∀ c ∈ pathFromGcode gs, c.isHome → c.endPos = Vec3.zero := by
  constructor
  · intro i h
    have := List.chain'_iff_get.mp
      (pathFromGcodeAux_chain gs [] GCodeState.init List.chain'_nil) i h
    exact this
  · intro c _ hc
    cases c with
    | home m => rfl
    | other c => exact absurd hc (by simp [Command.isHome])
    | linear m => exact absurd hc (by simp [Command.isHome])
    | arc m => exact absurd hc (by simp [Command.isHome])
    | rapid m => exact absurd hc (by simp [Command.isHome])

/-- Witness for C5 at the concrete two-command program `G0 X1; G28`:
the second record starts where the first ends. -/
theorem chain_continuity_witness :
    ((pathFromGcode [⟨.general, 0, [⟨'X', 1⟩]⟩, ⟨.general, 28, []⟩]).get
        ⟨1, by simp [pathFromGcode, pathFromGcodeAux]⟩).startPos =
      ((pathFromGcode [⟨.general, 0, [⟨'X', 1⟩]⟩, ⟨.general, 28, []⟩]).get
        ⟨0, by simp [pathFromGcode, pathFromGcodeAux]⟩).endPos :=
  (chain_continuity [⟨.general, 0, [⟨'X', 1⟩]⟩, ⟨.general, 28, []⟩]).1 0
    (by simp [pathFromGcode, pathFromGcodeAux])

/-- C10: the rewriter state's `next_feedrate` is `None` at every record
boundary — each `Linear`/`Arc` record's primary emission clears any value
the swivel emitter set, and `Other`/`Home`/`Rapid` records never set it,
so starting from `None` it is `None` again after every record of the
rewrite pass. -/
theorem nextFeedrate_none_at_boundaries :
    (∀ (c : Command) (pa : Option ℝ) (s : GCodeState) (st : DragknifeState)
        (cfg : DragknifeConfig), st.nextFeedrate = none →
          (c.toFixedGcode pa s st cfg).2.2.nextFeedrate = none)
    ∧ ∀ (cfg : DragknifeConfig) (cmds : List Command) (pa : Option ℝ)
        (s : GCodeState) (st : DragknifeState), st.nextFeedrate = none →
          (pathToFixedStates cfg cmds pa s st).2.2.nextFeedrate = none := by
  have step : ∀ (c : Command) (pa : Option ℝ) (s : GCodeState) (st : DragknifeState)
      (cfg : DragknifeConfig), st.nextFeedrate = none →
        (c.toFixedGcode pa s st cfg).2.2.nextFeedrate = none := by
    intro c pa s st cfg hst
    cases c with
    | other oc =>
        rw [Command.toFixedGcode]
        split <;> exact hst
    | linear m => exact addMisc_clears _ _ _ _
    | arc m => exact addMisc_clears _ _ _ _
    | home m => exact hst
    | rapid m => exact hst
  refine ⟨step, ?_⟩
  intro cfg cmds
  induction cmds with
  | nil => intro pa s st h; exact h
  | cons c rest ih =>
      intro pa s st h
      rw [pathToFixedStates]
      exact ih _ _ _ (step c pa s st cfg h)

/-- Witness for C10 at a concrete record and states: rewriting a `Home`
record from the initial states leaves `next_feedrate` empty. -/
theorem nextFeedrate_none_at_boundaries_witness :
    ((Command.home ⟨⟨.general, 28, []⟩, Vec3.zero⟩).toFixedGcode none GCodeState.init
        DragknifeState.init ⟨1, .absoluteHeight 1, 1, 300⟩).2.2.nextFeedrate = none :=
  nextFeedrate_none_at_boundaries.1 (Command.home ⟨⟨.general, 28, []⟩, Vec3.zero⟩) none
    GCodeState.init DragknifeState.init ⟨1, .absoluteHeight 1, 1, 300⟩ rfl

/-- C1: Offset compensation — for every emitted `Linear` whose record has a
defined tangent angle, the emitted in-plane target equals the record's end
plus `unit_angle(angle, plane) × knife_offset` (and equals `end` unchanged
when the angle is `None`); for every emitted `Arc`, the emitted endpoint is
`end + unit_angle(end_angle, plane) × knife_offset` and the emitted I/J/K
center offset equals `center − new_start` for
`new_start = start + unit_angle(start_angle, plane) × knife_offset`, so the
arc center is unchanged in space. -/
theorem offset_compensation (pa : Option ℝ) (s : GCodeState) (st : DragknifeState)
    (cfg : DragknifeConfig) :
    (∀ m : LinearMovement, ∃ g,
      ((Command.linear m).toFixedGcode pa s st cfg).1.getLast? = some g ∧
      (∀ θ, m.angle = some θ →
        g.valueFor s.plane.axis1.mainName =
          some ((m.end_ + Vec3.unitAngle θ s.plane * cfg.knifeOffset).coordsForPlane s.plane).1 ∧
        g.valueFor s.plane.axis2.mainName =
          some ((m.end_ + Vec3.unitAngle θ s.plane * cfg.knifeOffset).coordsForPlane s.plane).2) ∧
      (m.angle = none →
        g.valueFor s.plane.axis1.mainName = some ((m.end_).coordsForPlane s.plane).1 ∧
        g.valueFor s.plane.axis2.mainName = some ((m.end_).coordsForPlane s.plane).2))
    ∧ (∀ m : ArcMovement, ∃ g,
      ((Command.arc m).toFixedGcode pa s st cfg).1.getLast? = some g ∧
      g.valueFor s.plane.axis1.mainName =
        some ((m.end_ + Vec3.unitAngle m.endAngle s.plane * cfg.knifeOffset).coordsForPlane
          s.plane).1 ∧
      g.valueFor s.plane.axis2.mainName =
        some ((m.end_ + Vec3.unitAngle m.endAngle s.plane * cfg.knifeOffset).coordsForPlane
          s.plane).2 ∧
      g.valueFor s.plane.axis1.centerName =
        some ((m.center - (m.start + Vec3.unitAngle m.startAngle s.plane *
          cfg.knifeOffset)).coordsForPlane s.plane).1 ∧
      g.valueFor s.plane.axis2.centerName =
        some ((m.center - (m.start + Vec3.unitAngle m.startAngle s.plane *
          cfg.knifeOffset)).coordsForPlane s.plane).2) := by
  constructor
  · intro m
    simp only [Command.toFixedGcode]
    refine ⟨_, List.getLast?_concat _, ?_, ?_⟩
    · intro θ hθ
      simp only [hθ]
      exact ⟨addMisc_valueFor_head _ _ _ _ _,
        addMisc_valueFor_second _ _ _ _ _ _ (axis1_main_ne_axis2_main s.plane)⟩
    · intro hθ
      simp only [hθ]
      exact ⟨addMisc_valueFor_head _ _ _ _ _,
        addMisc_valueFor_second _ _ _ _ _ _ (axis1_main_ne_axis2_main s.plane)⟩
  · intro m
    simp only [Command.toFixedGcode]
    refine ⟨_, List.getLast?_concat _,
      addMisc_valueFor_head _ _ _ _ _,
      addMisc_valueFor_second _ _ _ _ _ _ (axis1_main_ne_axis2_main s.plane),
      addMisc_valueFor_third _ _ _ _ _ _ _ (axis1_main_ne_axis1_center s.plane)
        (axis2_main_ne_axis1_center s.plane),
      addMisc_valueFor_fourth _ _ _ _ _ _ _ _ (axis1_main_ne_axis2_center s.plane)
        (axis2_main_ne_axis2_center s.plane) (axis1_center_ne_axis2_center s.plane)⟩

/-- Witness for C1 on a concrete `Linear` record with tangent angle 0, plane
`XY`, knife offset 2: the emitted target is `(3 + 2, 4)`. -/
theorem offset_compensation_witness :
    ∃ g, ((Command.linear ⟨⟨.general, 1, []⟩, Vec3.zero, ⟨3, 4, 0⟩, some 0⟩).toFixedGcode none
        GCodeState.init DragknifeState.init ⟨2, .absoluteHeight 1, 1, 300⟩).1.getLast? = some g ∧
      g.valueFor 'X' = some 5 ∧ g.valueFor 'Y' = some 4 := by
  obtain ⟨g, hg, hsome, -⟩ :=
    (offset_compensation none GCodeState.init DragknifeState.init
      ⟨2, .absoluteHeight 1, 1, 300⟩).1 ⟨⟨.general, 1, []⟩, Vec3.zero, ⟨3, 4, 0⟩, some 0⟩
  obtain ⟨hX, hY⟩ := hsome 0 rfl
  refine ⟨g, hg, ?_, ?_⟩
  · rw [show 'X' = GCodeState.init.plane.axis1.mainName from rfl, hX]
    norm_num [Vec3.unitAngle, Vec3.from2d, Vec3.coordsForPlane, GCodeState.init]
  · rw [show 'Y' = GCodeState.init.plane.axis2.mainName from rfl, hY]
    norm_num [Vec3.unitAngle, Vec3.from2d, Vec3.coordsForPlane, GCodeState.init]

/-- C2: Swivel insertion — for every `Linear` or `Arc` record the rewriter
emits `swivel ++ [primary]`; the swivel sequence is nonempty iff both the
previous end angle and the record's start angle are defined and
`|signed_delta| > sharp_angle_threshold`; on firing it is exactly the three
commands lift (`G1`, `F = swivel_feedrate / unit_factor`), swivel arc
(`G2` when `signed_delta > 0`, else `G3`, with the specified endpoint and
center offset), and plunge (`G1` back to the original out-of-plane height);
and with no prior tangent no swivel is ever inserted. -/
theorem swivel_insertion (pa : Option ℝ) (s : GCodeState) (st : DragknifeState)
    (cfg : DragknifeConfig) :
    (∀ m : LinearMovement, ∃ g,
      ((Command.linear m).toFixedGcode pa s st cfg).1
        = (Command.createSwivelPath pa (Command.linear m) s st cfg).1 ++ [g])
    ∧ (∀ m : ArcMovement, ∃ g,
      ((Command.arc m).toFixedGcode pa s st cfg).1
        = (Command.createSwivelPath pa (Command.arc m) s st cfg).1 ++ [g])
    ∧ (∀ c : Command,
        (Command.createSwivelPath pa c s st cfg).1 ≠ [] ↔
          ∃ a b, pa = some a ∧ c.startAngle = some b ∧
            |signedAngle a b| > cfg.sharpAngleThreshold)
    ∧ (∀ (c : Command) (a b : ℝ), pa = some a → c.startAngle = some b →
        |signedAngle a b| > cfg.sharpAngleThreshold →
        (Command.createSwivelPath pa c s st cfg).1 =
          [⟨.general, 1,
              [⟨s.plane.axis3.mainName,
                  cfg.liftConfig.calcuteHeight (c.startPos.thirdCoord s.plane)⟩,
               ⟨'F', cfg.swivelFeedrate / s.unitFactor⟩]⟩,
           ⟨.general, if signedAngle a b > 0 then 2 else 3,
              [⟨s.plane.axis1.mainName,
                  ((Vec3.unitAngle b s.plane * cfg.knifeOffset +
                    c.startPos).coordsForPlane s.plane).1⟩,
               ⟨s.plane.axis2.mainName,
                  ((Vec3.unitAngle b s.plane * cfg.knifeOffset +
                    c.startPos).coordsForPlane s.plane).2⟩,
               ⟨s.plane.axis1.centerName,
                  ((Vec3.unitAngle (a + Real.pi) s.plane *
                    cfg.knifeOffset).coordsForPlane s.plane).1⟩,
               ⟨s.plane.axis2.centerName,
                  ((Vec3.unitAngle (a + Real.pi) s.plane *
                    cfg.knifeOffset).coordsForPlane s.plane).2⟩]⟩,
           ⟨.general, 1, [⟨s.plane.axis3.mainName, c.startPos.thirdCoord s.plane⟩]⟩])
    ∧ (pa = none → ∀ c : Command, (Command.createSwivelPath pa c s st cfg).1 = []) := by
  refine ⟨?_, ?_, ?_, ?_, ?_⟩
  · intro m
    simp only [Command.toFixedGcode]
    exact ⟨_, rfl⟩
  · intro m
    simp only [Command.toFixedGcode]
    exact ⟨_, rfl⟩
  · intro c
    cases pa with
    | none => simp [Command.createSwivelPath]
    | some a =>
        rw [Command.createSwivelPath]
        cases hc : c.startAngle with
        | none => simp
        | some b =>
            dsimp only
            split
            · rename_i hgt
              simp only [ne_eq, List.cons_ne_nil, not_false_eq_true, true_iff]
              exact ⟨a, b, rfl, rfl, hgt⟩
            · rename_i hle
              simp only [ne_eq, not_true_eq_false, false_iff, not_exists]
              rintro a' b' ⟨ha', hb', hgt⟩
              obtain rfl : a = a' := by injection ha'
              obtain rfl : b = b' := by injection hb'
              exact hle hgt
  · intro c a b hpa hb hgt
    subst hpa
    rw [Command.createSwivelPath]
    simp only [hb]
    rw [if_pos hgt]
  · intro hpa c
    subst hpa
    rfl

/-- Witness for C2 at a concrete sharp corner: previous tangent 0, next
tangent π, threshold 1 — the swivel fires. -/
theorem swivel_insertion_witness :
    (Command.createSwivelPath (some 0)
        (Command.linear ⟨⟨.general, 1, []⟩, Vec3.zero, ⟨1, 0, 0⟩, some Real.pi⟩)
        GCodeState.init DragknifeState.init ⟨2, .absoluteHeight 1, 1, 300⟩).1 ≠ [] := by
  refine ((swivel_insertion (some 0) GCodeState.init DragknifeState.init
      ⟨2, .absoluteHeight 1, 1, 300⟩).2.2.1
      (Command.linear ⟨⟨.general, 1, []⟩, Vec3.zero, ⟨1, 0, 0⟩, some Real.pi⟩)).mpr
    ⟨0, Real.pi, rfl, rfl, ?_⟩
  have hsa : signedAngle 0 Real.pi = -Real.pi := by
    rw [signedAngle, show (0 : ℝ) - Real.pi + Real.pi = 0 by ring, remEuclid]
    norm_num
  rw [hsa, abs_neg, abs_of_pos Real.pi_pos]
  have := Real.pi_gt_three
  norm_num
  linarith

/-- C3 (amended): a record produces zero output commands iff it is an
`Other` record whose original has major number 91 (this covers `G91`, but
also any other mnemonic with major number 91, such as `M91`); every other
record produces at least one output command, and the pipeline's output
never contains a `G91` command. -/
theorem g91_dropping_amended :
    (∀ (c : Command) (pa : Option ℝ) (s : GCodeState) (st : DragknifeState)
        (cfg : DragknifeConfig),
      (c.toFixedGcode pa s st cfg).1 = [] ↔ c.isDropped)
    ∧ ∀ (gs : List GCode) (cfg : DragknifeConfig), ∀ g ∈ repath gs cfg, ¬ g.isG91 := by
  constructor
  · intro c pa s st cfg
    cases c with
    | other oc =>
        rw [Command.toFixedGcode]
        split
        · rename_i h
          simp [Command.isDropped, h]
        · rename_i h
          simp [Command.isDropped, h]
    | linear m => simp [Command.toFixedGcode, Command.isDropped]
    | arc m => simp [Command.toFixedGcode, Command.isDropped]
    | home m => simp [Command.toFixedGcode, Command.isDropped]
    | rapid m => simp [Command.toFixedGcode, Command.isDropped]
  · intro gs cfg
    refine pathToFixedAux_no91 cfg (pathFromGcode gs) none GCodeState.init DragknifeState.init ?_
    exact pathFromGcodeAux_forall Command.originalNot91
      (fun g prev s => fromGcode_originalNot91 g prev s) gs [] GCodeState.init (by simp)

/-- Counterexample to C3 as stated: the one-command program `M91` (a
miscellaneous command with major number 91, not the `G91` command) produces
zero output commands, so "every record other than dropped `G91` produces at
least one output command" fails. -/
theorem g91_dropping_counterexample :
    repath [⟨.miscellaneous, 91, []⟩] ⟨1, .absoluteHeight 1, 1, 300⟩ = []
    ∧ ¬ (⟨.miscellaneous, 91, []⟩ : GCode).isG91 := by
  constructor
  · rfl
  · rintro ⟨h, -⟩
    exact absurd h (by decide)

/-- Witness for C3 (amended): an `Other` record for `G91` itself produces
zero output commands. -/
theorem g91_dropping_witness :
    (Command.toFixedGcode (.other ⟨⟨.general, 91, []⟩, Vec3.zero, none⟩) none GCodeState.init
        DragknifeState.init ⟨1, .absoluteHeight 1, 1, 300⟩).1 = [] :=
  (g91_dropping_amended.1 (.other ⟨⟨.general, 91, []⟩, Vec3.zero, none⟩) none GCodeState.init
    DragknifeState.init ⟨1, .absoluteHeight 1, 1, 300⟩).mpr rfl

/-- C7 (amended): for every `Linear` record produced by the classifier, the
angle is `None` iff the in-plane projection of `end − start` has magnitude
at most ε AND the previous record's end tangent is `None`; whenever the
in-plane magnitude is at most ε the previous end tangent is inherited as
the angle (which may be `Some`), and otherwise the angle is
`Some(atan2 of the in-plane delta)`. -/
theorem linear_angle_amended (g : GCode) (prev : Option Command) (s : GCodeState)
    (hmn : g.mnemonic = .general) (hn : g.majorNumber = 1) :
    ∃ m : LinearMovement, (Command.fromGcode g prev s).1 = Command.linear m ∧
      m.start = endPosOpt prev ∧ m.end_ = s.getTarget (endPosOpt prev) g ∧
      (m.angle = none ↔
        (((m.start - m.end_).projectPlane s.plane).magnitude ≤ f32Epsilon ∧
          endAngleOpt prev = none)) ∧
      (((m.start - m.end_).projectPlane s.plane).magnitude ≤ f32Epsilon →
        m.angle = endAngleOpt prev) ∧
      (¬ ((m.start - m.end_).projectPlane s.plane).magnitude ≤ f32Epsilon →
        m.angle = some (m.start.angleTo m.end_ s.plane)) := by
  obtain ⟨mn, n, args⟩ := g
  dsimp only at hmn hn
  subst hmn
  subst hn
  rw [Command.fromGcode]
  dsimp only
  refine ⟨_, rfl, rfl, rfl, ?_, ?_, ?_⟩
  · by_cases hc : ((endPosOpt prev -
        s.getTarget (endPosOpt prev) ⟨.general, 1, args⟩).projectPlane s.plane).magnitude
        ≤ f32Epsilon
    · rw [if_pos hc]
      exact ⟨fun h => ⟨hc, h⟩, fun h => h.2⟩
    · rw [if_neg hc]
      exact ⟨fun h => absurd h (Option.some_ne_none _), fun h => absurd h.1 hc⟩
  · intro hc
    rw [if_pos hc]
  · intro hc
    rw [if_neg hc]

/-- Counterexample to C7 as stated: in the program `G1 X5; G1 X5` the second
record is a zero-length `Linear` (in-plane magnitude 0 ≤ ε) whose angle is
`some 0` inherited from the first record — not `None` — so "angle is `None`
iff the in-plane magnitude is at most ε" fails. -/
theorem linear_angle_counterexample :
    (pathFromGcode [⟨.general, 1, [⟨'X', 5⟩]⟩, ⟨.general, 1, [⟨'X', 5⟩]⟩]).get? 1
      = some (Command.linear ⟨⟨.general, 1, [⟨'X', 5⟩]⟩, ⟨5, 0, 0⟩, ⟨5, 0, 0⟩, some 0⟩)
    ∧ ((Vec3.mk 5 0 0 - Vec3.mk 5 0 0).projectPlane GCodePlane.XY).magnitude ≤ f32Epsilon := by
  have hmag0 : ((Vec3.mk 5 0 0 - Vec3.mk 5 0 0).projectPlane GCodePlane.XY).magnitude = 0 := by
    simp [Vec3.projectPlane, Vec3.magnitude_mk]
  have hc1 : Command.fromGcode ⟨.general, 1, [⟨'X', 5⟩]⟩ none GCodeState.init
      = (Command.linear ⟨⟨.general, 1, [⟨'X', 5⟩]⟩, Vec3.zero, ⟨5, 0, 0⟩, some 0⟩,
          GCodeState.init) := by
    rw [Command.fromGcode]
    dsimp only [endPosOpt]
    have hT1 : GCodeState.init.getTarget Vec3.zero ⟨.general, 1, [⟨'X', 5⟩]⟩ = ⟨5, 0, 0⟩ := by
      simp [GCodeState.getTarget, GCodeState.init, GCode.valueFor, Vec3.zero,
        GCodeState.unitFactor]
    rw [hT1]
    have hmag : ((Vec3.zero - Vec3.mk 5 0 0).projectPlane GCodeState.init.plane).magnitude
        = 5 := by
      simp [Vec3.zero, Vec3.projectPlane, GCodeState.init]
      rw [Vec3.magnitude_mk]
      rw [sqrt_eval (r := 5) (by norm_num) (by norm_num)]
    rw [if_neg (by rw [hmag, f32Epsilon]; norm_num)]
    have hang : Vec3.angleTo Vec3.zero ⟨5, 0, 0⟩ GCodeState.init.plane = 0 := by
      simp [Vec3.angleTo, Vec3.zero, Vec3.coordsForPlane, GCodeState.init]
      exact atan2_zero_pos (by norm_num)
    rw [hang]
  have hc2 : Command.fromGcode ⟨.general, 1, [⟨'X', 5⟩]⟩
      (some (Command.linear ⟨⟨.general, 1, [⟨'X', 5⟩]⟩, Vec3.zero, ⟨5, 0, 0⟩, some 0⟩))
      GCodeState.init
      = (Command.linear ⟨⟨.general, 1, [⟨'X', 5⟩]⟩, ⟨5, 0, 0⟩, ⟨5, 0, 0⟩, some 0⟩,
          GCodeState.init) := by
    rw [Command.fromGcode]
    dsimp only [endPosOpt, Command.endPos]
    have hT2 : GCodeState.init.getTarget (Vec3.mk 5 0 0) ⟨.general, 1, [⟨'X', 5⟩]⟩
        = ⟨5, 0, 0⟩ := by
      simp [GCodeState.getTarget, GCodeState.init, GCode.valueFor, GCodeState.unitFactor]
    rw [hT2]
    rw [if_pos (by rw [show GCodeState.init.plane = GCodePlane.XY from rfl, hmag0,
      f32Epsilon]; norm_num)]
    rfl
  have hpath : pathFromGcode [⟨.general, 1, [⟨'X', 5⟩]⟩, ⟨.general, 1, [⟨'X', 5⟩]⟩]
      = [Command.linear ⟨⟨.general, 1, [⟨'X', 5⟩]⟩, Vec3.zero, ⟨5, 0, 0⟩, some 0⟩,
         Command.linear ⟨⟨.general, 1, [⟨'X', 5⟩]⟩, ⟨5, 0, 0⟩, ⟨5, 0, 0⟩, some 0⟩] := by
    rw [pathFromGcode, pathFromGcodeAux]
    rw [show (([] : List Command).getLast?) = none from rfl, hc1]
    rw [pathFromGcodeAux]
    rw [show (([] : List Command) ++
        [Command.linear ⟨⟨.general, 1, [⟨'X', 5⟩]⟩, Vec3.zero, ⟨5, 0, 0⟩, some 0⟩]).getLast?
      = some (Command.linear ⟨⟨.general, 1, [⟨'X', 5⟩]⟩, Vec3.zero, ⟨5, 0, 0⟩, some 0⟩)
      from rfl, hc2]
    rw [pathFromGcodeAux]
    simp
  rw [hpath]
  exact ⟨rfl, by rw [hmag0, f32Epsilon]; norm_num⟩

/-- Witness for C7 (amended) at the concrete command `G1 X5` from the
initial state: the amended classification facts hold there. -/
theorem linear_angle_witness :
    ∃ m : LinearMovement,
      (Command.fromGcode ⟨.general, 1, [⟨'X', 5⟩]⟩ none GCodeState.init).1
          = Command.linear m ∧
        m.start = endPosOpt none ∧
        m.end_ = GCodeState.init.getTarget (endPosOpt none) ⟨.general, 1, [⟨'X', 5⟩]⟩ ∧
        (m.angle = none ↔
          (((m.start - m.end_).projectPlane GCodeState.init.plane).magnitude ≤ f32Epsilon ∧
            endAngleOpt none = none)) ∧
        (((m.start - m.end_).projectPlane GCodeState.init.plane).magnitude ≤ f32Epsilon →
          m.angle = endAngleOpt none) ∧
        (¬ ((m.start - m.end_).projectPlane GCodeState.init.plane).magnitude ≤ f32Epsilon →
          m.angle = some (m.start.angleTo m.end_ GCodeState.init.plane)) :=
  linear_angle_amended ⟨.general, 1, [⟨'X', 5⟩]⟩ none GCodeState.init rfl rfl

/-- C6 (amended): for every `Arc` record produced by the classifier whose
resolved target differs from the arc center, `|end − center|` equals the
in-plane radius `|project_plane(start − center)|` exactly (so in
particular within `1e-4`); when `start − center` lies in the cut plane this
is `|start − center|`.  (When the target coincides with the center,
`normalize` returns zero and `end` collapses onto the center, so the
equality can fail.) -/
theorem arc_reseating_amended (g : GCode) (prev : Option Command) (s : GCodeState)
    (hmn : g.mnemonic = .general) (hn : g.majorNumber = 2 ∨ g.majorNumber = 3)
    (hne : s.getTarget (endPosOpt prev) g ≠ endPosOpt prev + s.getCenterOffset g) :
    ∃ m : ArcMovement, (Command.fromGcode g prev s).1 = Command.arc m ∧
      m.start = endPosOpt prev ∧
      m.center = endPosOpt prev + s.getCenterOffset g ∧
      (m.end_ - m.center).magnitude
        = ((m.start - m.center).projectPlane s.plane).magnitude ∧
      ((m.start - m.center).projectPlane s.plane = m.start - m.center →
        (m.end_ - m.center).magnitude = (m.start - m.center).magnitude) := by
  obtain ⟨mn, n, args⟩ := g
  dsimp only at hmn hn
  subst hmn
  have hv0 : (s.getTarget (endPosOpt prev) ⟨.general, n, args⟩
      - (endPosOpt prev + s.getCenterOffset ⟨.general, n, args⟩)).magnitude ≠ 0 := by
    rw [Ne, Vec3.magnitude_eq_zero, Vec3.sub_eq_zero]
    exact hne
  rcases hn with hn | hn
  · subst hn
    rw [Command.fromGcode]
    dsimp only
    refine ⟨_, rfl, rfl, rfl, ?_, ?_⟩
    · rw [Vec3.add_sub_cancel_right, Vec3.magnitude_smul, Vec3.magnitude_normalized hv0,
        one_mul, abs_of_nonneg (Vec3.magnitude_nonneg _)]
    · intro hproj
      rw [Vec3.add_sub_cancel_right, Vec3.magnitude_smul, Vec3.magnitude_normalized hv0,
        one_mul, abs_of_nonneg (Vec3.magnitude_nonneg _), hproj]
  · subst hn
    rw [Command.fromGcode]
    dsimp only
    refine ⟨_, rfl, rfl, rfl, ?_, ?_⟩
    · rw [Vec3.add_sub_cancel_right, Vec3.magnitude_smul, Vec3.magnitude_normalized hv0,
        one_mul, abs_of_nonneg (Vec3.magnitude_nonneg _)]
    · intro hproj
      rw [Vec3.add_sub_cancel_right, Vec3.magnitude_smul, Vec3.magnitude_normalized hv0,
        one_mul, abs_of_nonneg (Vec3.magnitude_nonneg _), hproj]

/-- Counterexample to C6 as stated: for the one-command program `G2 X1 I1`
(from the origin the resolved target `(1,0,0)` coincides with the center),
the classifier re-seats `end` onto the center, so `|end − center| = 0`
while `|start − center| = 1`; they differ by 1, far beyond the claimed
`1e-4`. -/
theorem arc_reseating_counterexample :
    (pathFromGcode [⟨.general, 2, [⟨'X', 1⟩, ⟨'I', 1⟩]⟩]).head?.bind Command.arcData
      = some (Vec3.zero, ⟨1, 0, 0⟩, ⟨1, 0, 0⟩)
    ∧ ¬ |(Vec3.mk 1 0 0 - Vec3.mk 1 0 0).magnitude
          - (Vec3.zero - Vec3.mk 1 0 0).magnitude| ≤ 1e-4 := by
  have hmagz : (Vec3.mk 1 0 0 - Vec3.mk 1 0 0).magnitude = 0 := by
    simp [Vec3.magnitude_mk]
  have hmag1 : (Vec3.zero - Vec3.mk 1 0 0).magnitude = 1 := by
    simp only [Vec3.zero, Vec3.sub_def, Vec3.magnitude_mk]
    rw [sqrt_eval (r := 1) (by norm_num) (by norm_num)]
  constructor
  · have hT : GCodeState.init.getTarget Vec3.zero ⟨.general, 2, [⟨'X', 1⟩, ⟨'I', 1⟩]⟩
        = ⟨1, 0, 0⟩ := by
      simp [GCodeState.getTarget, GCodeState.init, GCode.valueFor, Vec3.zero,
        GCodeState.unitFactor]
    have hC : GCodeState.init.getCenterOffset ⟨.general, 2, [⟨'X', 1⟩, ⟨'I', 1⟩]⟩
        = ⟨1, 0, 0⟩ := by
      simp [GCodeState.getCenterOffset, GCodeState.init, GCode.valueFor,
        GCodeState.unitFactor]
    rw [pathFromGcode, pathFromGcodeAux, pathFromGcodeAux]
    rw [show (([] : List Command)).getLast? = none from rfl]
    simp only [List.nil_append, List.head?_cons, Option.some_bind]
    rw [Command.fromGcode]
    dsimp only [endPosOpt, Command.arcData]
    rw [hT, hC]
    have hcen : Vec3.zero + Vec3.mk 1 0 0 = ⟨1, 0, 0⟩ := by
      simp [Vec3.zero]
    rw [hcen]
    have hsub : Vec3.mk 1 0 0 - Vec3.mk 1 0 0 = Vec3.zero := by
      simp [Vec3.zero]
    rw [hsub]
    have hnz : Vec3.zero.normalized = Vec3.zero := by
      rw [Vec3.normalized, if_pos]
      rw [show Vec3.zero.magnitude = 0 from by simp [Vec3.zero, Vec3.magnitude_mk]]
    rw [hnz]
    have hfin : Vec3.zero *
        ((Vec3.zero - Vec3.mk 1 0 0).projectPlane GCodeState.init.plane).magnitude
        + Vec3.mk 1 0 0 = ⟨1, 0, 0⟩ := by
      simp [Vec3.zero]
    rw [hfin]
  · rw [hmagz, hmag1]
    norm_num

/-- Witness for C6 (amended) at the concrete command `G2 X2 I1` from the
origin, whose target `(2,0,0)` differs from the center `(1,0,0)`. -/
theorem arc_reseating_witness :
    ∃ m : ArcMovement,
        (Command.fromGcode ⟨.general, 2, [⟨'X', 2⟩, ⟨'I', 1⟩]⟩ none GCodeState.init).1
          = Command.arc m ∧
        m.start = endPosOpt none ∧
        m.center = endPosOpt none
          + GCodeState.init.getCenterOffset ⟨.general, 2, [⟨'X', 2⟩, ⟨'I', 1⟩]⟩ ∧
        (m.end_ - m.center).magnitude
          = ((m.start - m.center).projectPlane GCodeState.init.plane).magnitude ∧
        ((m.start - m.center).projectPlane GCodeState.init.plane = m.start - m.center →
          (m.end_ - m.center).magnitude = (m.start - m.center).magnitude) :=
  arc_reseating_amended ⟨.general, 2, [⟨'X', 2⟩, ⟨'I', 1⟩]⟩ none GCodeState.init rfl
    (Or.inl rfl)
    (by
      have hT : GCodeState.init.getTarget (endPosOpt none)
          ⟨.general, 2, [⟨'X', 2⟩, ⟨'I', 1⟩]⟩ = ⟨2, 0, 0⟩ := by
        simp [GCodeState.getTarget, GCodeState.init, GCode.valueFor, endPosOpt, Vec3.zero,
          GCodeState.unitFactor]
      have hC : endPosOpt none + GCodeState.init.getCenterOffset
          ⟨.general, 2, [⟨'X', 2⟩, ⟨'I', 1⟩]⟩ = ⟨1, 0, 0⟩ := by
        simp [GCodeState.getCenterOffset, GCodeState.init, GCode.valueFor, endPosOpt,
          Vec3.zero, GCodeState.unitFactor]
      rw [hT, hC]
      simp [Vec3.mk.injEq])

/-- C4 (amended): when a swivel sequence has just been emitted for a
`Linear` or `Arc` record whose original command carries no `F` argument,
the emitted primary motion carries exactly one `F` argument whose value is
the modal feedrate divided by the unit factor twice
(`(feedrate / unit_factor) / unit_factor`: the swivel emitter stores
`feedrate / unit_factor` and the emitter divides by the unit factor once
more).  Under `G21` (unit factor 1) this equals `feedrate`, but under `G20`
it is not `feedrate / unit_factor`. -/
theorem feedrate_restore_amended (pa : Option ℝ) (s : GCodeState) (st : DragknifeState)
    (cfg : DragknifeConfig) :
    (∀ m : LinearMovement, m.original.valueFor 'F' = none →
      (Command.createSwivelPath pa (Command.linear m) s st cfg).1 ≠ [] →
      ∃ g, ((Command.linear m).toFixedGcode pa s st cfg).1.getLast? = some g ∧
        g.valueFor 'F' = some (s.feedrate / s.unitFactor / s.unitFactor) ∧
        g.countF = 1)
    ∧ (∀ m : ArcMovement, m.original.valueFor 'F' = none →
      (Command.createSwivelPath pa (Command.arc m) s st cfg).1 ≠ [] →
      ∃ g, ((Command.arc m).toFixedGcode pa s st cfg).1.getLast? = some g ∧
        g.valueFor 'F' = some (s.feedrate / s.unitFactor / s.unitFactor) ∧
        g.countF = 1) := by
  constructor
  · intro m hF hfired
    have hus : (Command.linear m).updateSettings s = (s, false) := by
      rw [Command.updateSettings]
      case x_1 =>
        intro oc h
        exact Command.noConfusion h
      dsimp only [Command.original]
      rw [hF]
    rcases createSwivel_state pa (Command.linear m) s st cfg with ⟨hempty, -⟩ | ⟨-, hstate⟩
    · exact absurd hempty hfired
    · simp only [Command.toFixedGcode]
      rw [hstate]
      refine ⟨_, List.getLast?_concat _, ?_, ?_⟩
      · exact (addMisc_swivel_F (Command.linear m) (s.feedrate / s.unitFactor) s hus
          (by
            intro w hw
            simp only [List.mem_cons, List.not_mem_nil, or_false] at hw
            rcases hw with rfl | rfl
            · exact mainName_ne_F _
            · exact mainName_ne_F _)).1
      · exact (addMisc_swivel_F (Command.linear m) (s.feedrate / s.unitFactor) s hus
          (by
            intro w hw
            simp only [List.mem_cons, List.not_mem_nil, or_false] at hw
            rcases hw with rfl | rfl
            · exact mainName_ne_F _
            · exact mainName_ne_F _)).2
  · intro m hF hfired
    have hus : (Command.arc m).updateSettings s = (s, false) := by
      rw [Command.updateSettings]
      case x_1 =>
        intro oc h
        exact Command.noConfusion h
      dsimp only [Command.original]
      rw [hF]
    rcases createSwivel_state pa (Command.arc m) s st cfg with ⟨hempty, -⟩ | ⟨-, hstate⟩
    · exact absurd hempty hfired
    · simp only [Command.toFixedGcode]
      rw [hstate]
      refine ⟨_, List.getLast?_concat _, ?_, ?_⟩
      · exact (addMisc_swivel_F (Command.arc m) (s.feedrate / s.unitFactor) s hus
          (by
            intro w hw
            simp only [List.mem_cons, List.not_mem_nil, or_false] at hw
            rcases hw with rfl | rfl | rfl | rfl
            · exact mainName_ne_F _
            · exact mainName_ne_F _
            · exact centerName_ne_F _
            · exact centerName_ne_F _)).1
      · exact (addMisc_swivel_F (Command.arc m) (s.feedrate / s.unitFactor) s hus
          (by
            intro w hw
            simp only [List.mem_cons, List.not_mem_nil, or_false] at hw
            rcases hw with rfl | rfl | rfl | rfl
            · exact mainName_ne_F _
            · exact mainName_ne_F _
            · exact centerName_ne_F _
            · exact centerName_ne_F _)).2

/-- Witness for C4 (amended) at a concrete fired swivel in millimeter mode:
the restored `F` equals `3000 / 1 / 1`. -/
theorem feedrate_restore_witness :
    ∃ g, ((Command.linear ⟨⟨.general, 1, []⟩, Vec3.zero, ⟨1, 0, 0⟩,
        some Real.pi⟩).toFixedGcode (some 0) GCodeState.init DragknifeState.init
        ⟨2, .absoluteHeight 1, 1, 300⟩).1.getLast? = some g ∧
      g.valueFor 'F' = some (GCodeState.init.feedrate / GCodeState.init.unitFactor /
        GCodeState.init.unitFactor) ∧
      g.countF = 1 :=
  (feedrate_restore_amended (some 0) GCodeState.init DragknifeState.init
      ⟨2, .absoluteHeight 1, 1, 300⟩).1
    ⟨⟨.general, 1, []⟩, Vec3.zero, ⟨1, 0, 0⟩, some Real.pi⟩ rfl
    (by
      rw [Command.createSwivelPath]
      dsimp only [Command.startAngle]
      rw [if_pos]
      · simp
      · have hsa : signedAngle 0 Real.pi = -Real.pi := by
          rw [signedAngle, show (0 : ℝ) - Real.pi + Real.pi = 0 by ring, remEuclid]
          norm_num
        rw [hsa, abs_neg, abs_of_pos Real.pi_pos]
        have := Real.pi_gt_three
        linarith)

/-- Counterexample to C4 as stated: in the inches-mode program
`G20; G1 X4; G1 Y4` (threshold 1 rad, so the right angle fires a swivel),
the primary motion emitted after the swivel carries
`F = 3000 / 2.54 / 2.54` — the modal feedrate divided by the unit factor
twice — rather than the claimed `3000 / 2.54`. -/
theorem feedrate_restore_counterexample :
    ((repath [⟨.general, 20, []⟩, ⟨.general, 1, [⟨'X', 4⟩]⟩, ⟨.general, 1, [⟨'Y', 4⟩]⟩]
        ⟨1, .absoluteHeight 5, 1, 300⟩).getLast?.map (fun g => g.valueFor 'F'))
      = some (some (3000 / 2.54 / 2.54))
    ∧ (3000 / 2.54 / 2.54 : ℝ) ≠ 3000 / 2.54 := by
  constructor
  · have hc1 : Command.fromGcode ⟨.general, 20, []⟩ none GCodeState.init
        = (Command.other ⟨⟨.general, 20, []⟩, Vec3.zero, none⟩,
            ⟨.inches, .XY, .absolute, 3000⟩) := rfl
    have hc2 : Command.fromGcode ⟨.general, 1, [⟨'X', 4⟩]⟩
        (some (Command.other ⟨⟨.general, 20, []⟩, Vec3.zero, none⟩))
        ⟨.inches, .XY, .absolute, 3000⟩
        = (Command.linear ⟨⟨.general, 1, [⟨'X', 4⟩]⟩, Vec3.zero, ⟨10.16, 0, 0⟩, some 0⟩,
            ⟨.inches, .XY, .absolute, 3000⟩) := by
      rw [Command.fromGcode]
      dsimp only [endPosOpt, Command.endPos]
      have hT : (⟨.inches, .XY, .absolute, 3000⟩ : GCodeState).getTarget Vec3.zero
          ⟨.general, 1, [⟨'X', 4⟩]⟩ = ⟨10.16, 0, 0⟩ := by
        simp [GCodeState.getTarget, GCode.valueFor, GCodeState.unitFactor, Vec3.zero]
        norm_num
      rw [hT]
      have hmag : ((Vec3.zero - Vec3.mk 10.16 0 0).projectPlane
          (⟨.inches, .XY, .absolute, 3000⟩ : GCodeState).plane).magnitude = 10.16 := by
        simp [Vec3.zero, Vec3.projectPlane]
        rw [Vec3.magnitude_mk]
        rw [sqrt_eval (r := 10.16) (by norm_num) (by norm_num)]
      rw [if_neg (by rw [hmag, f32Epsilon]; norm_num)]
      have hang : Vec3.angleTo Vec3.zero ⟨10.16, 0, 0⟩
          (⟨.inches, .XY, .absolute, 3000⟩ : GCodeState).plane = 0 := by
        simp [Vec3.angleTo, Vec3.zero, Vec3.coordsForPlane]
        exact atan2_zero_pos (by norm_num)
      rw [hang]
    have hc3 : Command.fromGcode ⟨.general, 1, [⟨'Y', 4⟩]⟩
        (some (Command.linear ⟨⟨.general, 1, [⟨'X', 4⟩]⟩, Vec3.zero, ⟨10.16, 0, 0⟩, some 0⟩))
        ⟨.inches, .XY, .absolute, 3000⟩
        = (Command.linear ⟨⟨.general, 1, [⟨'Y', 4⟩]⟩, ⟨10.16, 0, 0⟩, ⟨10.16, 10.16, 0⟩,
            some (Real.pi / 2)⟩, ⟨.inches, .XY, .absolute, 3000⟩) := by
      rw [Command.fromGcode]
      dsimp only [endPosOpt, Command.endPos]
      have hT : (⟨.inches, .XY, .absolute, 3000⟩ : GCodeState).getTarget (Vec3.mk 10.16 0 0)
          ⟨.general, 1, [⟨'Y', 4⟩]⟩ = ⟨10.16, 10.16, 0⟩ := by
        simp [GCodeState.getTarget, GCode.valueFor, GCodeState.unitFactor]
        norm_num
      rw [hT]
      have hmag : ((Vec3.mk 10.16 0 0 - Vec3.mk 10.16 10.16 0).projectPlane
          (⟨.inches, .XY, .absolute, 3000⟩ : GCodeState).plane).magnitude = 10.16 := by
        simp [Vec3.projectPlane]
        rw [Vec3.magnitude_mk]
        rw [sqrt_eval (r := 10.16) (by norm_num) (by norm_num)]
      rw [if_neg (by rw [hmag, f32Epsilon]; norm_num)]
      have hang : Vec3.angleTo (Vec3.mk 10.16 0 0) ⟨10.16, 10.16, 0⟩
          (⟨.inches, .XY, .absolute, 3000⟩ : GCodeState).plane = Real.pi / 2 := by
        simp [Vec3.angleTo, Vec3.coordsForPlane]
        exact atan2_pos_zero (by norm_num)
      rw [hang]
    have hpath : pathFromGcode [⟨.general, 20, []⟩, ⟨.general, 1, [⟨'X', 4⟩]⟩,
        ⟨.general, 1, [⟨'Y', 4⟩]⟩]
        = [Command.other ⟨⟨.general, 20, []⟩, Vec3.zero, none⟩,
           Command.linear ⟨⟨.general, 1, [⟨'X', 4⟩]⟩, Vec3.zero, ⟨10.16, 0, 0⟩, some 0⟩,
           Command.linear ⟨⟨.general, 1, [⟨'Y', 4⟩]⟩, ⟨10.16, 0, 0⟩, ⟨10.16, 10.16, 0⟩,
             some (Real.pi / 2)⟩] := by
      rw [pathFromGcode, pathFromGcodeAux]
      rw [show (([] : List Command)).getLast? = none from rfl, hc1]
      rw [pathFromGcodeAux]
      rw [show (([] : List Command) ++
          [Command.other ⟨⟨.general, 20, []⟩, Vec3.zero, none⟩]).getLast?
        = some (Command.other ⟨⟨.general, 20, []⟩, Vec3.zero, none⟩) from rfl, hc2]
      rw [pathFromGcodeAux]
      rw [show ((([] : List Command) ++
            [Command.other ⟨⟨.general, 20, []⟩, Vec3.zero, none⟩]) ++
          [Command.linear ⟨⟨.general, 1, [⟨'X', 4⟩]⟩, Vec3.zero, ⟨10.16, 0, 0⟩,
            some 0⟩]).getLast?
        = some (Command.linear ⟨⟨.general, 1, [⟨'X', 4⟩]⟩, Vec3.zero, ⟨10.16, 0, 0⟩,
            some 0⟩) from rfl, hc3]
      rw [pathFromGcodeAux]
      simp
    rw [repath, hpath, pathToFixed, pathToFixedAux]
    have h1 : Command.toFixedGcode (Command.other ⟨⟨.general, 20, []⟩, Vec3.zero, none⟩)
        none GCodeState.init DragknifeState.init ⟨1, .absoluteHeight 5, 1, 300⟩
        = ([⟨.general, 20, []⟩], ⟨.inches, .XY, .absolute, 3000⟩, DragknifeState.init) := rfl
    rw [h1]
    dsimp only [Command.endAngle]
    rw [pathToFixedAux]
    have h2a : (Command.toFixedGcode
        (Command.linear ⟨⟨.general, 1, [⟨'X', 4⟩]⟩, Vec3.zero, ⟨10.16, 0, 0⟩, some 0⟩)
        none ⟨.inches, .XY, .absolute, 3000⟩ DragknifeState.init
        ⟨1, .absoluteHeight 5, 1, 300⟩).2.1 = ⟨.inches, .XY, .absolute, 3000⟩ := rfl
    have h2b : (Command.toFixedGcode
        (Command.linear ⟨⟨.general, 1, [⟨'X', 4⟩]⟩, Vec3.zero, ⟨10.16, 0, 0⟩, some 0⟩)
        none ⟨.inches, .XY, .absolute, 3000⟩ DragknifeState.init
        ⟨1, .absoluteHeight 5, 1, 300⟩).2.2 = DragknifeState.init := rfl
    rw [h2a, h2b]
    dsimp only [Command.endAngle]
    rw [pathToFixedAux, pathToFixedAux]
    have hsa : signedAngle 0 (Real.pi / 2) = -(Real.pi / 2) := by
      rw [signedAngle, show (0 : ℝ) - Real.pi / 2 + Real.pi = Real.pi / 2 by ring,
        remEuclid]
      have hq : Real.pi / 2 / (2 * Real.pi) = 1 / 4 := by
        field_simp
        ring
      rw [hq, show ⌊(1 / 4 : ℝ)⌋ = 0 from by norm_num]
      push_cast
      ring
    have hgt : |signedAngle 0 (Real.pi / 2)|
        > (⟨1, .absoluteHeight 5, 1, 300⟩ : DragknifeConfig).sharpAngleThreshold := by
      rw [hsa, abs_neg, abs_of_pos (by positivity : (0 : ℝ) < Real.pi / 2)]
      have := Real.pi_gt_three
      show (1 : ℝ) < Real.pi / 2
      linarith
    have hswst : (Command.createSwivelPath (some 0)
        (Command.linear ⟨⟨.general, 1, [⟨'Y', 4⟩]⟩, ⟨10.16, 0, 0⟩, ⟨10.16, 10.16, 0⟩,
          some (Real.pi / 2)⟩)
        ⟨.inches, .XY, .absolute, 3000⟩ DragknifeState.init
        ⟨1, .absoluteHeight 5, 1, 300⟩).2 = ⟨some (3000 / 2.54)⟩ := by
      rw [Command.createSwivelPath]
      dsimp only [Command.startAngle]
      rw [if_pos hgt]
      rfl
    simp only [Command.toFixedGcode]
    rw [getLast?_nested]
    simp only [Option.map_some', Option.some.injEq]
    rw [hswst]
    rw [(addMisc_swivel_F (Command.linear ⟨⟨.general, 1, [⟨'Y', 4⟩]⟩, ⟨10.16, 0, 0⟩,
      ⟨10.16, 10.16, 0⟩, some (Real.pi / 2)⟩) (3000 / 2.54)
      ⟨.inches, .XY, .absolute, 3000⟩ rfl (by
        intro w hw
        simp only [List.mem_cons, List.not_mem_nil, or_false] at hw
        rcases hw with rfl | rfl
        · decide
        · decide)).1]
    norm_num [GCodeState.unitFactor]
  · norm_num

/-- C9: Totality — the pipeline is a total function (every definition of the
embedding is a total structurally-recursive function): the classifier emits
exactly one record per parsed command; argument pushing is pure appending,
so the emitted primary command keeps its head and receives the `F` word and
every preserved miscellaneous argument of the original, for originals
carrying any number of arguments (the `push_argument` unwraps never fail);
and every record emits exactly 0 (dropped), 1, or 4 output commands. -/
theorem pipeline_total :
    (∀ (gs : List GCode), (pathFromGcode gs).length = gs.length)
    ∧ (∀ (g : GCode) (c : Command) (st : DragknifeState) (s : GCodeState),
        (Command.addMiscArgsAndUpdateSettings g c st s).1.args
          = g.args
            ++ (if (c.updateSettings s).2 then
                  [⟨'F', (c.updateSettings s).1.feedrate / (c.updateSettings s).1.unitFactor⟩]
                else
                  match st.nextFeedrate with
                  | some f => [⟨'F', f / (c.updateSettings s).1.unitFactor⟩]
                  | none => [])
            ++ c.original.args.filter
                (fun w => decide (w.letter ∉ excludedLetters (c.updateSettings s).1.plane)))
    ∧ (∀ (c : Command) (pa : Option ℝ) (s : GCodeState) (st : DragknifeState)
        (cfg : DragknifeConfig),
        (c.toFixedGcode pa s st cfg).1.length = 1 ∨
          (c.toFixedGcode pa s st cfg).1.length = 4 ∨
          ((c.toFixedGcode pa s st cfg).1.length = 0 ∧ c.isDropped)) := by
  refine ⟨?_, ?_, ?_⟩
  · intro gs
    rw [pathFromGcode, pathFromGcodeAux_length]
    simp
  · intro g c st s
    rw [Command.addMiscArgsAndUpdateSettings]
    dsimp only
    rw [foldl_push_full]
    split
    · dsimp only [GCode.pushArgument]
    · split
      · dsimp only [GCode.pushArgument]
      · simp
  · intro c pa s st cfg
    cases c with
    | other oc =>
        rw [Command.toFixedGcode]
        split
        · rename_i h
          exact Or.inr (Or.inr ⟨rfl, h⟩)
        · exact Or.inl rfl
    | linear m =>
        simp only [Command.toFixedGcode]
        rcases createSwivel_length pa (Command.linear m) s st cfg with h | h
        · refine Or.inl ?_
          rw [List.length_append, h]
          rfl
        · refine Or.inr (Or.inl ?_)
          rw [List.length_append, h]
          rfl
    | arc m =>
        simp only [Command.toFixedGcode]
        rcases createSwivel_length pa (Command.arc m) s st cfg with h | h
        · refine Or.inl ?_
          rw [List.length_append, h]
          rfl
        · refine Or.inr (Or.inl ?_)
          rw [List.length_append, h]
          rfl
    | home m => exact Or.inl rfl
    | rapid m => exact Or.inl rfl

end Dragknife
